import Mathlib

/-!
Shallow embedding of the scattering-data-field core of the scatlib repository
(`ScatteringDataFieldBase`, `ScatteringDataFieldGridded`,
`ScatteringDataFieldSpectral`, `ScatteringDataFieldFullySpectral` and the
Gauss-Legendre quadrature of `integration.h`).

The C++ classes are templated over a scalar type; the embedding is accordingly
parametric over a linearly ordered field `α`, and external `libm` functions
(`std::cos`, the value `sqrt(4*M_PI)`, `M_PI`) are passed as parameters.
Data tensors are embedded as total functions from natural-number indices to
scalars (complex entries as pairs `α × α`), together with the axis sizes that
the surrounding class tracks.  Repository helpers that live in headers not
present under `src/` (`integrate_angles`, `eigen::copy`, `RegularRegridder`,
`sht::SHT`) are modelled from the specification; their doc comments say so.
-/

namespace Scattering

/-- `enum class ParticleType { Random, AzimuthallyRandom, General }`. -/
inductive ParticleType where
  | Random : ParticleType
  | AzimuthallyRandom : ParticleType
  | General : ParticleType
deriving DecidableEq, Repr

/-- `ScatteringDataFieldBase::determine_type`: classification of the particle
type from the four angular grid sizes (`eigen::Index` is a signed integer
type, embedded as `ℤ`); the scattering-zenith size is ignored by the code. -/
def determine_type (n_lon_inc n_lat_inc n_lon_scat _n_lat_scat : ℤ) :
    ParticleType :=
  if n_lon_inc = 1 ∧ n_lat_inc = 1 ∧ n_lon_scat = 1 then ParticleType.Random
  else if n_lon_inc = 1 then ParticleType.AzimuthallyRandom
  else ParticleType.General

/-- Modelled from the spec: the spherical-harmonics transform object of the
repository's `sht.h`, which is not under `src/`.  Per the spec a transform is
determined by its truncation, "the (max degree, max order) pair bounding a
harmonics expansion", together with the associated angular grid sizes
(`get_n_longitudes`, `get_n_latitudes`). -/
structure SHT where
  l_max : ℕ
  m_max : ℕ
  n_lon : ℕ
  n_lat : ℕ
deriving DecidableEq, Repr

/-- Modelled from the spec: linear position of the coefficient of degree `l`
and order `m` inside an order-major coefficient layout that starts at order
`m0`; for each order `x` the degrees `x, …, l_max` are stored contiguously. -/
def coeffIndexFrom (lmax m0 l m : ℕ) : ℕ :=
  (∑ x in Finset.Ico m0 m, (lmax + 1 - x)) + (l - m)

/-- Modelled from the spec: position of the `(l, m)` coefficient in the
transform's linear coefficient axis ("determines coefficient count"); the
degree-0 coefficient `(0, 0)` sits at linear index `0`. -/
def SHT.coeffIndex (s : SHT) (l m : ℕ) : ℕ :=
  coeffIndexFrom s.l_max 0 l m

/-- Modelled from the spec: `get_n_spectral_coeffs`, the length of the linear
coefficient axis of a transform. -/
def SHT.n_spectral_coeffs (s : SHT) : ℕ :=
  ∑ x in Finset.Ico 0 (s.m_max + 1), (s.l_max + 1 - x)

/-- Fuel-driven inverse of the order-major layout: recover the `(l, m)` pair
owning a linear coefficient index, scanning the per-order blocks. -/
def lmGo (lmax : ℕ) : ℕ → ℕ → ℕ → ℕ × ℕ
  | 0, m, i => (m + i, m)
  | fuel + 1, m, i =>
      if i < lmax + 1 - m then (m + i, m)
      else lmGo lmax fuel (m + 1) (i - (lmax + 1 - m))

/-- Modelled from the spec: the degree/order pair owning a linear coefficient
index of the transform's coefficient axis. -/
def SHT.lmOfIndex (s : SHT) (i : ℕ) : ℕ × ℕ :=
  lmGo s.l_max s.m_max 0 i

/-- Modelled from the spec: `sht::SHT::add_coeffs` (in `sht.h`, not under
`src/`), the coefficient-domain "add with different truncations": the result
lives on the first transform's truncation, "coefficients present in both
truncations are summed; coefficients present only in the higher truncation
are copied through; no aliasing is introduced". -/
def SHT.add_coeffs {α : Type} [LinearOrderedField α]
    (sa : SHT) (va : ℕ → α × α) (sb : SHT) (vb : ℕ → α × α) : ℕ → α × α :=
  fun i =>
    let lm := sa.lmOfIndex i
    if lm.1 ≤ sb.l_max ∧ lm.2 ≤ sb.m_max then
      va i + vb (sb.coeffIndex lm.1 lm.2)
    else va i

/-- Modelled from the spec: the two-truncation variant of `add_coeffs` used by
the fully-spectral field, acting on (incoming-coefficient × scattering-
coefficient) matrices; each axis is combined truncation-aware as above. -/
def SHT.add_coeffs2 {α : Type} [LinearOrderedField α]
    (sai sas : SHT) (ma : ℕ → ℕ → α × α)
    (sbi sbs : SHT) (mb : ℕ → ℕ → α × α) : ℕ → ℕ → α × α :=
  fun ci cs =>
    let lmi := sai.lmOfIndex ci
    let lms := sas.lmOfIndex cs
    if lmi.1 ≤ sbi.l_max ∧ lmi.2 ≤ sbi.m_max ∧
        lms.1 ≤ sbs.l_max ∧ lms.2 ≤ sbs.m_max then
      ma ci cs + mb (sbi.coeffIndex lmi.1 lmi.2) (sbs.coeffIndex lms.1 lms.2)
    else ma ci cs

/-- Trapezoidal fold of the samples `g 0, …, g (n-1)` against the node list
`xs` of length `n`. -/
def trapz {α : Type} [LinearOrderedField α] (xs : List α) (g : ℕ → α) : α :=
  ∑ i in Finset.range (xs.length - 1),
    (xs.getD (i + 1) 0 - xs.getD i 0) * (g i + g (i + 1)) / 2

/-- Modelled from the spec: the angular-integration primitive
`integrate_angles(matrix, longitudes, colatitudes)` (declared in a header not
under `src/`), which "numerically integrates the data over the 2-D scattering
solid angle (azimuth × zenith)" by quadrature over the longitude nodes and
the colatitude (−cos zenith) nodes. -/
def integrate_angles {α : Type} [LinearOrderedField α]
    (m : ℕ → ℕ → α) (lon colat : List α) : α :=
  trapz lon fun k => trapz colat fun l => m k l

/-- Modelled from the spec: monotone 1-D interpolation of the sample family
`v` (samples living on the source grid `xs`) at coordinate `x`, the scalar
kernel of the `RegularRegridder` of `interpolation.h` (not under `src/`):
"1-D monotone interpolation is applied sequentially along each selected
axis"; coordinates outside the source range are "linearly extrapolated using
the boundary interval's slope" (the extrapolating behaviour; the error-on-
out-of-range mode is never exercised by the verified claims).  A single-point
source grid carries its only sample through unchanged. -/
def interp1 {α : Type} [LinearOrderedField α] {β : Type}
    [AddCommGroup β] [Module α β] (xs : List α) (v : ℕ → β) (x : α) : β :=
  if xs.length ≤ 1 then v 0
  else
    let i := min (xs.countP (fun y => decide (y ≤ x)) - 1) (xs.length - 2)
    let x0 := xs.getD i 0
    let x1 := xs.getD (i + 1) 0
    let t := (x - x0) / (x1 - x0)
    (1 - t) • v i + t • v (i + 1)

/-- Modelled from the spec: `eigen::copy` (in the repository's `eigen.h`, not
under `src/`), restricted to the element axis, the only axis whose extent
differs at its call sites: the destination holds the source values on the
overlapping prefix and, per the spec, "grown elements are zero-initialized". -/
def eigen_copy {β : Type} [Zero β] (n_src n_dst : ℕ) (v : ℕ → β) : ℕ → β :=
  fun j => if j < n_src ∧ j < n_dst then v j else 0

/-- Error kind of the spec's error-handling design: "dimension mismatch (axis
sizes/element counts incompatible between operands — fatal, surfaced
immediately, never silently truncated)". -/
inductive ScatteringError where
  | dimension_mismatch : ScatteringError
deriving DecidableEq, Repr

/-- `ScatteringDataFieldGridded`: six grids (frequency, temperature, incoming
azimuth/zenith, scattering azimuth/zenith) plus the rank-7 data tensor, whose
seventh axis (the element axis, `data_->dimension(6)`) has extent
`n_elements`; the tensor entries are the function `data` on the in-range
index combinations. -/
structure ScatteringDataFieldGridded (α : Type) where
  f_grid : List α
  t_grid : List α
  lon_inc : List α
  lat_inc : List α
  lon_scat : List α
  lat_scat : List α
  n_elements : ℕ
  data : ℕ → ℕ → ℕ → ℕ → ℕ → ℕ → ℕ → α

/-- `ScatteringDataFieldSpectral`: frequency/temperature/incoming-angle grids,
the scattering-angle transform `sht_scat`, and the rank-6 complex data tensor
(dimension 4 is the linear coefficient axis, dimension 5 the element axis of
extent `n_elements`); complex entries are real/imaginary pairs. -/
structure ScatteringDataFieldSpectral (α : Type) where
  f_grid : List α
  t_grid : List α
  lon_inc : List α
  lat_inc : List α
  sht_scat : SHT
  n_elements : ℕ
  data : ℕ → ℕ → ℕ → ℕ → ℕ → ℕ → α × α

/-- `ScatteringDataFieldFullySpectral`: frequency/temperature grids, the two
transforms `sht_inc` and `sht_scat`, and the rank-5 complex data tensor
(dimensions 2 and 3 are the incoming and scattering coefficient axes,
dimension 4 the element axis of extent `n_elements`). -/
structure ScatteringDataFieldFullySpectral (α : Type) where
  f_grid : List α
  t_grid : List α
  sht_inc : SHT
  sht_scat : SHT
  n_elements : ℕ
  data : ℕ → ℕ → ℕ → ℕ → ℕ → α × α

section GriddedOps

variable {α : Type} [LinearOrderedField α]

/-- `get_particle_type` on a gridded field: the stored `type_` is computed by
`determine_type` from the four angular grid sizes at construction, and the
grids never change afterwards. -/
def ScatteringDataFieldGridded.get_particle_type
    (f : ScatteringDataFieldGridded α) : ParticleType :=
  determine_type f.lon_inc.length f.lat_inc.length
    f.lon_scat.length f.lat_scat.length

/-- `ScatteringDataFieldGridded::regrid`: 6-axis interpolation
(`RegularRegridder<Scalar, 0, 1, 2, 3, 4, 5>`) from the field's grids onto
the given new grids; the element axis is carried through. -/
def ScatteringDataFieldGridded.regrid (f : ScatteringDataFieldGridded α)
    (fg tg li la lo ls : List α) : ScatteringDataFieldGridded α where
  f_grid := fg
  t_grid := tg
  lon_inc := li
  lat_inc := la
  lon_scat := lo
  lat_scat := ls
  n_elements := f.n_elements
  data := fun i1 i2 i3 i4 i5 i6 j =>
    interp1 f.f_grid (fun a1 =>
      interp1 f.t_grid (fun a2 =>
        interp1 f.lon_inc (fun a3 =>
          interp1 f.lat_inc (fun a4 =>
            interp1 f.lon_scat (fun a5 =>
              interp1 f.lat_scat (fun a6 => f.data a1 a2 a3 a4 a5 a6 j)
                (ls.getD i6 0))
              (lo.getD i5 0))
            (la.getD i4 0))
          (li.getD i3 0))
        (tg.getD i2 0))
      (fg.getD i1 0)

/-- Angular part of `ScatteringDataFieldGridded::set_data`: the
`RegularRegridder<Scalar, 2, 3, 4, 5>` interpolation of `other`'s data from
its four angular grids onto the given target angular grids. -/
def ScatteringDataFieldGridded.regrid_angles_data
    (other : ScatteringDataFieldGridded α) (li la lo ls : List α) :
    ℕ → ℕ → ℕ → ℕ → ℕ → ℕ → ℕ → α :=
  fun i1 i2 i3 i4 i5 i6 j =>
    interp1 other.lon_inc (fun a3 =>
      interp1 other.lat_inc (fun a4 =>
        interp1 other.lon_scat (fun a5 =>
          interp1 other.lat_scat (fun a6 => other.data i1 i2 a3 a4 a5 a6 j)
            (ls.getD i6 0))
          (lo.getD i5 0))
        (la.getD i4 0))
      (li.getD i3 0)

/-- `ScatteringDataFieldGridded::set_data(frequency_index, temperature_index,
other)`: regrids `other`'s angular data onto this field's angular grids, then
assigns the regridded sub-tensor at input index `(0, 0)` into this field's
sub-tensor at the given indices.  The assignment of the rank-5 views is the
dimension-checked dense-tensor assignment of `eigen.h` (modelled from the
spec's error design); after regridding the element axis is the only axis
whose extents can still differ. -/
def ScatteringDataFieldGridded.set_data (f : ScatteringDataFieldGridded α)
    (frequency_index temperature_index : ℕ)
    (other : ScatteringDataFieldGridded α) :
    Except ScatteringError (ScatteringDataFieldGridded α) :=
  let regridded :=
    other.regrid_angles_data f.lon_inc f.lat_inc f.lon_scat f.lat_scat
  if other.n_elements = f.n_elements then
    Except.ok { f with
      data := fun i1 i2 i3 i4 i5 i6 j =>
        if i1 = frequency_index ∧ i2 = temperature_index then
          regridded 0 0 i3 i4 i5 i6 j
        else f.data i1 i2 i3 i4 i5 i6 j }
  else Except.error ScatteringError.dimension_mismatch

/-- `ScatteringDataFieldGridded::integrate_scattering_angles`: for every
(frequency, temperature, incoming-angle, element) combination, folds the
scattering-angle sub-matrix against the scattering-longitude nodes and the
colatitudes `-cos(lat_scat)`; `cosFn` is the external `std::cos`. -/
def ScatteringDataFieldGridded.integrate_scattering_angles
    (f : ScatteringDataFieldGridded α) (cosFn : α → α) :
    ℕ → ℕ → ℕ → ℕ → ℕ → α :=
  fun i1 i2 i3 i4 j =>
    integrate_angles (fun k l => f.data i1 i2 i3 i4 k l j)
      f.lon_scat (f.lat_scat.map fun t => -cosFn t)

/-- `ScatteringDataFieldGridded::normalize(value)`: computes the
scattering-angle integrals, then scales every element's scattering sub-matrix
of each (frequency, temperature, incoming-angle) slice by
`value / integral`, where `integral` is the slice's first-element integral;
slices whose integral is exactly zero are skipped. -/
def ScatteringDataFieldGridded.normalize (f : ScatteringDataFieldGridded α)
    (cosFn : α → α) (value : α) : ScatteringDataFieldGridded α :=
  { f with
    data := fun i1 i2 i3 i4 k l j =>
      let integral := f.integrate_scattering_angles cosFn i1 i2 i3 i4 0
      if integral ≠ 0 then (value / integral) * f.data i1 i2 i3 i4 k l j
      else f.data i1 i2 i3 i4 k l j }

/-- `ScatteringDataFieldGridded::operator+=`: regrids the right operand onto
this field's six grids and accumulates its data tensor elementwise. -/
def ScatteringDataFieldGridded.add (f other : ScatteringDataFieldGridded α) :
    ScatteringDataFieldGridded α :=
  let regridded :=
    other.regrid f.f_grid f.t_grid f.lon_inc f.lat_inc f.lon_scat f.lat_scat
  { f with
    data := fun i1 i2 i3 i4 i5 i6 j =>
      f.data i1 i2 i3 i4 i5 i6 j + regridded.data i1 i2 i3 i4 i5 i6 j }

/-- `ScatteringDataFieldGridded::operator*=`: uniform scalar scaling of the
data tensor, `(*data_) = c * (*data_)`. -/
def ScatteringDataFieldGridded.scale (f : ScatteringDataFieldGridded α)
    (c : α) : ScatteringDataFieldGridded α :=
  { f with data := fun i1 i2 i3 i4 i5 i6 j => c * f.data i1 i2 i3 i4 i5 i6 j }

/-- `ScatteringDataFieldGridded::set_number_of_scattering_coeffs(n)`: early
return when the element-axis extent already equals `n`, otherwise a fresh
tensor with element extent `n` filled by `eigen::copy` from the old tensor. -/
def ScatteringDataFieldGridded.set_number_of_scattering_coeffs
    (f : ScatteringDataFieldGridded α) (n : ℕ) :
    ScatteringDataFieldGridded α :=
  if f.n_elements = n then f
  else
    { f with
      n_elements := n
      data := fun i1 i2 i3 i4 i5 i6 =>
        eigen_copy f.n_elements n (f.data i1 i2 i3 i4 i5 i6) }

end GriddedOps

section SpectralOps

variable {α : Type} [LinearOrderedField α]

/-- `get_particle_type` on a spectral field: the angular sizes handed to
`determine_type` at construction are the incoming grid lengths and the
scattering transform's `get_n_longitudes()`/`get_n_latitudes()`. -/
def ScatteringDataFieldSpectral.get_particle_type
    (f : ScatteringDataFieldSpectral α) : ParticleType :=
  determine_type f.lon_inc.length f.lat_inc.length
    f.sht_scat.n_lon f.sht_scat.n_lat

/-- Eigen's `chip<4>(c)` on the rank-6 spectral data tensor: fix coordinate
`c` on dimension 4 (the coefficient axis). -/
def chip4 {β : Type} (d : ℕ → ℕ → ℕ → ℕ → ℕ → ℕ → β) (c : ℕ) :
    ℕ → ℕ → ℕ → ℕ → ℕ → β :=
  fun i1 i2 i3 i4 j => d i1 i2 i3 i4 c j

/-- `ScatteringDataFieldSpectral::integrate_scattering_angles`: the real part
of the coefficient-axis chip at index 0, scaled by `sqrt(4.0 * M_PI)` (the
external value `sqrt_4pi`); no synthesis of the angular field is involved. -/
def ScatteringDataFieldSpectral.integrate_scattering_angles
    (f : ScatteringDataFieldSpectral α) (sqrt_4pi : α) :
    ℕ → ℕ → ℕ → ℕ → ℕ → α :=
  fun i1 i2 i3 i4 j => (chip4 f.data 0 i1 i2 i3 i4 j).1 * sqrt_4pi

/-- `ScatteringDataFieldSpectral::normalize(value)`: scales the whole
(coefficient × element) sub-tensor of each (frequency, temperature,
incoming-angle) slice by `value / integral`, `integral` being the slice's
first-element scattering-angle integral; zero-integral slices are skipped. -/
def ScatteringDataFieldSpectral.normalize (f : ScatteringDataFieldSpectral α)
    (sqrt_4pi value : α) : ScatteringDataFieldSpectral α :=
  { f with
    data := fun i1 i2 i3 i4 c j =>
      let integral := f.integrate_scattering_angles sqrt_4pi i1 i2 i3 i4 0
      if integral ≠ 0 then (value / integral) • f.data i1 i2 i3 i4 c j
      else f.data i1 i2 i3 i4 c j }

/-- `ScatteringDataFieldSpectral::regrid`: `RegularRegridder<Scalar, 0, 1, 2,
3>` interpolation onto new frequency/temperature/incoming-angle grids; the
scattering transform and the coefficient and element axes are carried
through. -/
def ScatteringDataFieldSpectral.regrid (f : ScatteringDataFieldSpectral α)
    (fg tg li la : List α) : ScatteringDataFieldSpectral α where
  f_grid := fg
  t_grid := tg
  lon_inc := li
  lat_inc := la
  sht_scat := f.sht_scat
  n_elements := f.n_elements
  data := fun i1 i2 i3 i4 c j =>
    interp1 f.f_grid (fun a1 =>
      interp1 f.t_grid (fun a2 =>
        interp1 f.lon_inc (fun a3 =>
          interp1 f.lat_inc (fun a4 => f.data a1 a2 a3 a4 c j)
            (la.getD i4 0))
          (li.getD i3 0))
        (tg.getD i2 0))
      (fg.getD i1 0)

/-- `ScatteringDataFieldSpectral::operator+=`: regrids the right operand onto
this field's frequency/temperature/incoming-angle grids, then combines the
coefficient vectors of every slice by the truncation-aware `add_coeffs`. -/
def ScatteringDataFieldSpectral.add (f other : ScatteringDataFieldSpectral α) :
    ScatteringDataFieldSpectral α :=
  let regridded := other.regrid f.f_grid f.t_grid f.lon_inc f.lat_inc
  { f with
    data := fun i1 i2 i3 i4 c j =>
      SHT.add_coeffs f.sht_scat (fun x => f.data i1 i2 i3 i4 x j)
        regridded.sht_scat (fun x => regridded.data i1 i2 i3 i4 x j) c }

/-- `ScatteringDataFieldSpectral::operator*=`: uniform scaling of the complex
data tensor by the real scalar `c`. -/
def ScatteringDataFieldSpectral.scale (f : ScatteringDataFieldSpectral α)
    (c : α) : ScatteringDataFieldSpectral α :=
  { f with data := fun i1 i2 i3 i4 cc j => c • f.data i1 i2 i3 i4 cc j }

/-- `ScatteringDataFieldSpectral::set_number_of_scattering_coeffs(n)`: early
return on equal extent, otherwise `eigen::copy` into a tensor whose
dimension 5 has extent `n`. -/
def ScatteringDataFieldSpectral.set_number_of_scattering_coeffs
    (f : ScatteringDataFieldSpectral α) (n : ℕ) :
    ScatteringDataFieldSpectral α :=
  if f.n_elements = n then f
  else
    { f with
      n_elements := n
      data := fun i1 i2 i3 i4 c =>
        eigen_copy f.n_elements n (f.data i1 i2 i3 i4 c) }

/-- `ScatteringDataFieldSpectral::to_spectral(sht_other)`: builds an empty
(zero-initialised, `setZero()`) field carrying the same grids and element
count but the new transform, then accumulates `*this` into it through
`operator+=`. -/
def ScatteringDataFieldSpectral.to_spectral (f : ScatteringDataFieldSpectral α)
    (sht_other : SHT) : ScatteringDataFieldSpectral α :=
  let result : ScatteringDataFieldSpectral α :=
    { f_grid := f.f_grid
      t_grid := f.t_grid
      lon_inc := f.lon_inc
      lat_inc := f.lat_inc
      sht_scat := sht_other
      n_elements := f.n_elements
      data := fun _ _ _ _ _ _ => 0 }
  result.add f

end SpectralOps

section FullySpectralOps

variable {α : Type} [LinearOrderedField α]

/-- `get_particle_type` on a fully-spectral field: all four angular sizes come
from the two transforms' grid-size accessors. -/
def ScatteringDataFieldFullySpectral.get_particle_type
    (f : ScatteringDataFieldFullySpectral α) : ParticleType :=
  determine_type f.sht_inc.n_lon f.sht_inc.n_lat
    f.sht_scat.n_lon f.sht_scat.n_lat

/-- `ScatteringDataFieldFullySpectral::regrid`: `RegularRegridder<Scalar, 0,
1>` interpolation onto new frequency/temperature grids only. -/
def ScatteringDataFieldFullySpectral.regrid
    (f : ScatteringDataFieldFullySpectral α) (fg tg : List α) :
    ScatteringDataFieldFullySpectral α where
  f_grid := fg
  t_grid := tg
  sht_inc := f.sht_inc
  sht_scat := f.sht_scat
  n_elements := f.n_elements
  data := fun i1 i2 ci cs j =>
    interp1 f.f_grid (fun a1 =>
      interp1 f.t_grid (fun a2 => f.data a1 a2 ci cs j)
        (tg.getD i2 0))
      (fg.getD i1 0)

/-- `ScatteringDataFieldFullySpectral::operator+=`: regrids the right operand
onto this field's frequency/temperature grids, then combines the coefficient
matrices of every element slice with the two-truncation `add_coeffs`. -/
def ScatteringDataFieldFullySpectral.add
    (f other : ScatteringDataFieldFullySpectral α) :
    ScatteringDataFieldFullySpectral α :=
  let regridded := other.regrid f.f_grid f.t_grid
  { f with
    data := fun i1 i2 ci cs j =>
      SHT.add_coeffs2 f.sht_inc f.sht_scat (fun x y => f.data i1 i2 x y j)
        regridded.sht_inc regridded.sht_scat
        (fun x y => regridded.data i1 i2 x y j) ci cs }

/-- `ScatteringDataFieldFullySpectral::operator*=`: uniform scaling of the
complex data tensor by the real scalar `c`. -/
def ScatteringDataFieldFullySpectral.scale
    (f : ScatteringDataFieldFullySpectral α) (c : α) :
    ScatteringDataFieldFullySpectral α :=
  { f with data := fun i1 i2 ci cs j => c • f.data i1 i2 ci cs j }

/-- `ScatteringDataFieldFullySpectral::set_number_of_scattering_coeffs(n)`:
early return on equal extent, otherwise `eigen::copy` into a tensor whose
dimension 4 has extent `n`. -/
def ScatteringDataFieldFullySpectral.set_number_of_scattering_coeffs
    (f : ScatteringDataFieldFullySpectral α) (n : ℕ) :
    ScatteringDataFieldFullySpectral α :=
  if f.n_elements = n then f
  else
    { f with
      n_elements := n
      data := fun i1 i2 ci cs =>
        eigen_copy f.n_elements n (f.data i1 i2 ci cs) }

end FullySpectralOps

section Quadrature

variable {α : Type} [LinearOrderedField α]

/-- The `detail::Precision<float>` threshold of `integration.h`. -/
def Precision_float : ℚ := 1 / 10 ^ 6

/-- The generic `detail::Precision<Scalar>` threshold of `integration.h`
(used for `double`). -/
def Precision_double : ℚ := 1 / 10 ^ 16

/-- The `detail::Precision<long double>` threshold of `integration.h`. -/
def Precision_long_double : ℚ := 1 / 10 ^ 19

/-- The fixed Newton iteration bound `n_max_iter` of
`GaussLegendreQuadrature::calculate_nodes_and_weights`. -/
def n_max_iter : ℕ := 10

/-- The Legendre recurrence of the inner loop of
`calculate_nodes_and_weights`: starting from `p_l = x`, `p_l_1 = 1`, each
pass sets `p_l = ((2l - 1) x p_(l-1) - (l - 1) p_(l-2)) / l`; `legendreP x l`
is the value `p_l` holds once the loop has processed degree `l`. -/
def legendreP (x : α) : ℕ → α
  | 0 => 1
  | 1 => x
  | l + 2 =>
      ((2 * ((l : α) + 2) - 1) * x * legendreP x (l + 1) -
        (((l : α) + 2) - 1) * legendreP x l) / ((l : α) + 2)

/-- One pass of the Newton loop body: evaluate `p_l`, `p_l_1`, form
`dp_dx = (1 - x)(1 + x) / (n (p_l_1 - x p_l))` and take the Newton step
`x -= p_l * dp_dx`; returns the new iterate and `dp_dx`. -/
def newton_step (n : ℕ) (x : α) : α × α :=
  let p_l := legendreP x n
  let p_l_1 := legendreP x (n - 1)
  let dp_dx := ((1 - x) * (1 + x)) / ((n : α) * (p_l_1 - x * p_l))
  (x - p_l * dp_dx, dp_dx)

/-- The Newton loop `for (j = 0; j < n_max_iter; ++j)` with its early exit
`if (dx < threshold) break`, where `dx = |x - x_old|` and
`threshold = 0.5 * (x + x_old)`; returns the final iterate, the last
`dp_dx`, and the number of loop passes that were executed. -/
def newton_loop (n : ℕ) : ℕ → α → α → α × α × ℕ
  | 0, x, dp => (x, dp, 0)
  | fuel + 1, x, _dp =>
      let s := newton_step n x
      let dx := |s.1 - x|
      let threshold := (s.1 + x) / 2
      if dx < threshold then (s.1, s.2, 1)
      else
        let r := newton_loop n fuel s.1 s.2
        (r.1, r.2.1, r.2.2 + 1)

/-- The initial guess of `calculate_nodes_and_weights` for the `i`-th node:
`x = -(1 - (n - 1) / (2n)^3) * cos(pi (4i - 1) / (4n + 2))`; `cosFn` and
`pi` stand for the external `std::cos` and `M_PI`. -/
def initial_guess (cosFn : α → α) (pi : α) (n i : ℕ) : α :=
  -(1 - ((n : α) - 1) / ((2 * (n : α)) * (2 * (n : α)) * (2 * (n : α)))) *
    cosFn (pi * (4 * (i : α) - 1) / (4 * (n : α) + 2))

/-- The full per-node Newton computation: run the loop from the initial
guess with fuel `n_max_iter`. -/
def newton_node (cosFn : α → α) (pi : α) (n i : ℕ) : α × α × ℕ :=
  newton_loop n n_max_iter (initial_guess cosFn pi n i) 0

/-- One pass of the outer node loop of `calculate_nodes_and_weights` for loop
counter `i = i0 + 1`: compute the node, store `nodes_[i-1] = x`,
`weights_[i-1] = 2 dp_dx^2 / ((1 - x)(1 + x))`, `nodes_[n-i] = -x`,
`weights_[n-i] = weights_[i-1]` (in that order). -/
def gl_step (cosFn : α → α) (pi : α) (n : ℕ)
    (nw : (ℕ → α) × (ℕ → α)) (i0 : ℕ) : (ℕ → α) × (ℕ → α) :=
  let i := i0 + 1
  let r := newton_node cosFn pi n i
  let x := r.1
  let dp_dx := r.2.1
  let w := 2 * dp_dx * dp_dx / ((1 - x) * (1 + x))
  (Function.update (Function.update nw.1 (i - 1) x) (n - i) (-x),
   Function.update (Function.update nw.2 (i - 1) w) (n - i) w)

/-- `GaussLegendreQuadrature::calculate_nodes_and_weights`: iterate the node
loop for `i = 1, …, (n + 1) / 2` and return the `nodes_` and `weights_`
arrays.  The parameter `precision` embeds the local
`Scalar precision = detail::Precision<Scalar>::value;` of the C++ body. -/
def calculate_nodes_and_weights (cosFn : α → α) (pi precision : α) (n : ℕ) :
    (ℕ → α) × (ℕ → α) :=
  (List.range ((n + 1) / 2)).foldl (gl_step cosFn pi n)
    (fun _ => 0, fun _ => 0)

end Quadrature

section GridsEq

variable {α : Type} [LinearOrderedField α]

/-- All six grids and the derived particle type of two gridded fields agree. -/
def grids_eq_gridded (a b : ScatteringDataFieldGridded α) : Prop :=
  a.f_grid = b.f_grid ∧ a.t_grid = b.t_grid ∧ a.lon_inc = b.lon_inc ∧
  a.lat_inc = b.lat_inc ∧ a.lon_scat = b.lon_scat ∧ a.lat_scat = b.lat_scat ∧
  a.get_particle_type = b.get_particle_type

/-- All grids (the scattering ones through the shared transform) and the
derived particle type of two spectral fields agree. -/
def grids_eq_spectral (a b : ScatteringDataFieldSpectral α) : Prop :=
  a.f_grid = b.f_grid ∧ a.t_grid = b.t_grid ∧ a.lon_inc = b.lon_inc ∧
  a.lat_inc = b.lat_inc ∧ a.sht_scat = b.sht_scat ∧
  a.get_particle_type = b.get_particle_type

/-- All grids (the angular ones through the two shared transforms) and the
derived particle type of two fully-spectral fields agree. -/
def grids_eq_fully (a b : ScatteringDataFieldFullySpectral α) : Prop :=
  a.f_grid = b.f_grid ∧ a.t_grid = b.t_grid ∧ a.sht_inc = b.sht_inc ∧
  a.sht_scat = b.sht_scat ∧ a.get_particle_type = b.get_particle_type

end GridsEq

section Examples

/-- Concrete gridded field witnessing the normalization round trip: unit data
on a 2 × 2 scattering grid, all outer axes of extent 1. -/
def exampleGridded1 : ScatteringDataFieldGridded ℚ where
  f_grid := [0]
  t_grid := [0]
  lon_inc := [0]
  lat_inc := [0]
  lon_scat := [0, 1]
  lat_scat := [0, 1]
  n_elements := 1
  data := fun _ _ _ _ _ _ _ => 1

/-- Concrete gridded field with two element slices, witnessing the
element-axis resize. -/
def exampleGridded4 : ScatteringDataFieldGridded ℚ where
  f_grid := [0]
  t_grid := [0]
  lon_inc := [0]
  lat_inc := [0]
  lon_scat := [0]
  lat_scat := [0]
  n_elements := 2
  data := fun _ _ _ _ _ _ j => (j : ℚ) + 1

/-- Concrete gridded field with one element slice, the `set_data` target. -/
def exampleGridded5 : ScatteringDataFieldGridded ℚ where
  f_grid := [0]
  t_grid := [0]
  lon_inc := [0]
  lat_inc := [0]
  lon_scat := [0]
  lat_scat := [0]
  n_elements := 1
  data := fun _ _ _ _ _ _ _ => 1

/-- Concrete gridded field with two element slices, the mismatching
`set_data` source. -/
def exampleGridded5b : ScatteringDataFieldGridded ℚ where
  f_grid := [0]
  t_grid := [0]
  lon_inc := [0]
  lat_inc := [0]
  lon_scat := [0]
  lat_scat := [0]
  n_elements := 2
  data := fun _ _ _ _ _ _ _ => 1

/-- Concrete spectral field on the truncation `l_max = 1`, `m_max = 1`. -/
def exampleSpectral6 : ScatteringDataFieldSpectral ℚ where
  f_grid := [0]
  t_grid := [0]
  lon_inc := [0]
  lat_inc := [0]
  sht_scat := { l_max := 1, m_max := 1, n_lon := 2, n_lat := 2 }
  n_elements := 1
  data := fun _ _ _ _ c _ => ((c : ℚ) + 1, 0)

/-- Concrete target truncation `l_max = 2`, `m_max = 0` for `to_spectral`. -/
def exampleSHT6 : SHT :=
  { l_max := 2, m_max := 0, n_lon := 2, n_lat := 2 }

end Examples

section Theorems

variable {α : Type} [LinearOrderedField α]

theorem trapz_mul (xs : List α) (c : α) (g : ℕ → α) :
    trapz xs (fun i => c * g i) = c * trapz xs g := by
  unfold trapz
  rw [Finset.mul_sum]
  exact Finset.sum_congr rfl fun i _ => by ring

theorem integrate_angles_mul (lon colat : List α) (c : α) (m : ℕ → ℕ → α) :
    integrate_angles (fun k l => c * m k l) lon colat
      = c * integrate_angles m lon colat := by
  unfold integrate_angles
  rw [← trapz_mul]
  congr 1
  funext k
  rw [trapz_mul]

/-- C1: for every gridded field and nonzero target `value`, `normalize`
followed by `integrate_scattering_angles` returns `value` as the
first-element integral of every (frequency, temperature, incoming-angle)
slice whose pre-normalization first-element integral was nonzero, and leaves
the data of every slice with zero first-element integral unchanged. -/
theorem normalize_integrate_spec (f : ScatteringDataFieldGridded α)
    (cosFn : α → α) (value : α) (hv : value ≠ 0) (i1 i2 i3 i4 : ℕ) :
    (f.integrate_scattering_angles cosFn i1 i2 i3 i4 0 ≠ 0 →
      (f.normalize cosFn value).integrate_scattering_angles cosFn i1 i2 i3 i4 0
        = value) ∧
    (f.integrate_scattering_angles cosFn i1 i2 i3 i4 0 = 0 →
      ∀ k l j, (f.normalize cosFn value).data i1 i2 i3 i4 k l j
        = f.data i1 i2 i3 i4 k l j) := by
  constructor
  · intro hI
    have h1 : (f.normalize cosFn value).integrate_scattering_angles cosFn
        i1 i2 i3 i4 0
        = integrate_angles
            (fun k l =>
              (value / f.integrate_scattering_angles cosFn i1 i2 i3 i4 0) *
                f.data i1 i2 i3 i4 k l 0)
            f.lon_scat (f.lat_scat.map fun t => -cosFn t) := by
      unfold ScatteringDataFieldGridded.integrate_scattering_angles
      congr 1
      funext k l
      simp only [ScatteringDataFieldGridded.normalize]
      rw [if_pos hI]
      rfl
    rw [h1, integrate_angles_mul]
    exact div_mul_cancel₀ value hI
  · intro hI k l j
    simp only [ScatteringDataFieldGridded.normalize]
    rw [if_neg (not_not_intro hI)]

theorem normalize_integrate_spec_witness :
    (exampleGridded1.normalize (fun x => -x) 5).integrate_scattering_angles
      (fun x => -x) 0 0 0 0 0 = 5 :=
  (normalize_integrate_spec exampleGridded1 (fun x => -x) 5
    (by norm_num) 0 0 0 0).1
    (by simp [exampleGridded1, ScatteringDataFieldGridded.integrate_scattering_angles,
          integrate_angles, trapz])

/-- C2: on a spectral field, `integrate_scattering_angles` returns, for every
(frequency, temperature, incoming-angle, element) slice, the real part of
the coefficient at linear index 0 (the degree-0 coefficient) multiplied by
`sqrt(4π)`; the result is read directly off the coefficient tensor, with no
spherical-harmonics synthesis of the data involved. -/
theorem spectral_integrate_shortcut (f : ScatteringDataFieldSpectral α)
    (sqrt_4pi : α) (i1 i2 i3 i4 j : ℕ) :
    f.integrate_scattering_angles sqrt_4pi i1 i2 i3 i4 j
      = (f.data i1 i2 i3 i4 0 j).1 * sqrt_4pi := rfl

/-- C3 counterexample: on grid sizes (1, 2, 1, 5) the code classifies the
particle as `AzimuthallyRandom` although the scattering-azimuth size 1 is not
greater than 1, so the claimed characterization ("AzimuthallyRandom exactly
when `n_lon_inc = 1` and `n_lon_scat > 1`", all other non-Random cases
`General`) fails at this input. -/
theorem determine_type_claim_counterexample :
    determine_type 1 2 1 5 = ParticleType.AzimuthallyRandom ∧
      ¬((1 : ℤ) > 1) := by
  exact ⟨by decide, by decide⟩

/-- C3 amended: `determine_type` returns `Random` exactly when the
incoming-azimuth, incoming-zenith and scattering-azimuth sizes are all 1;
`AzimuthallyRandom` exactly when the incoming-azimuth size is 1 but not all
three of those sizes are 1; and `General` exactly when the incoming-azimuth
size differs from 1.  The three concrete classifications of the claim hold. -/
theorem determine_type_characterization (a b c d : ℤ) :
    (determine_type a b c d = ParticleType.Random ↔ a = 1 ∧ b = 1 ∧ c = 1) ∧
    (determine_type a b c d = ParticleType.AzimuthallyRandom ↔
      a = 1 ∧ ¬(b = 1 ∧ c = 1)) ∧
    (determine_type a b c d = ParticleType.General ↔ a ≠ 1) ∧
    determine_type 1 1 1 5 = ParticleType.Random ∧
    determine_type 1 3 4 5 = ParticleType.AzimuthallyRandom ∧
    determine_type 2 3 4 5 = ParticleType.General := by
  refine ⟨?_, ?_, ?_, by decide, by decide, by decide⟩ <;>
    unfold determine_type <;> split_ifs with h1 h2 <;> simp_all

/-- C4: `set_number_of_scattering_coeffs` on a gridded field with element
extent `n`: growing to `n + k` (`k > 0`) keeps the first `n` element slices
unchanged and zero-fills the `k` new slices; shrinking to `n - k`
(`0 < k < n`) keeps exactly the first `n - k` slices; resizing to `n` itself
returns the field entirely unchanged. -/
theorem set_number_of_scattering_coeffs_spec
    (f : ScatteringDataFieldGridded α) :
    (∀ k, 0 < k →
      (f.set_number_of_scattering_coeffs (f.n_elements + k)).n_elements
          = f.n_elements + k ∧
      (∀ i1 i2 i3 i4 i5 i6 j, j < f.n_elements →
        (f.set_number_of_scattering_coeffs (f.n_elements + k)).data
            i1 i2 i3 i4 i5 i6 j
          = f.data i1 i2 i3 i4 i5 i6 j) ∧
      (∀ i1 i2 i3 i4 i5 i6 j, f.n_elements ≤ j → j < f.n_elements + k →
        (f.set_number_of_scattering_coeffs (f.n_elements + k)).data
            i1 i2 i3 i4 i5 i6 j = 0)) ∧
    (∀ k, 0 < k → k < f.n_elements →
      (f.set_number_of_scattering_coeffs (f.n_elements - k)).n_elements
          = f.n_elements - k ∧
      ∀ i1 i2 i3 i4 i5 i6 j, j < f.n_elements - k →
        (f.set_number_of_scattering_coeffs (f.n_elements - k)).data
            i1 i2 i3 i4 i5 i6 j
          = f.data i1 i2 i3 i4 i5 i6 j) ∧
    f.set_number_of_scattering_coeffs f.n_elements = f := by
  refine ⟨?_, ?_, ?_⟩
  · intro k hk
    have hne : ¬f.n_elements = f.n_elements + k := by omega
    refine ⟨?_, ?_, ?_⟩
    · simp [ScatteringDataFieldGridded.set_number_of_scattering_coeffs, hne]
    · intro i1 i2 i3 i4 i5 i6 j hj
      simp only [ScatteringDataFieldGridded.set_number_of_scattering_coeffs,
        if_neg hne, eigen_copy]
      rw [if_pos ⟨hj, by omega⟩]
    · intro i1 i2 i3 i4 i5 i6 j hj1 hj2
      simp only [ScatteringDataFieldGridded.set_number_of_scattering_coeffs,
        if_neg hne, eigen_copy]
      rw [if_neg (by omega)]
  · intro k hk1 hk2
    have hne : ¬f.n_elements = f.n_elements - k := by omega
    refine ⟨?_, ?_⟩
    · simp [ScatteringDataFieldGridded.set_number_of_scattering_coeffs, hne]
    · intro i1 i2 i3 i4 i5 i6 j hj
      simp only [ScatteringDataFieldGridded.set_number_of_scattering_coeffs,
        if_neg hne, eigen_copy]
      rw [if_pos ⟨by omega, hj⟩]
  · simp [ScatteringDataFieldGridded.set_number_of_scattering_coeffs]

theorem set_number_of_scattering_coeffs_spec_witness :
    (exampleGridded4.set_number_of_scattering_coeffs 3).data 0 0 0 0 0 0 1
        = exampleGridded4.data 0 0 0 0 0 0 1 ∧
    (exampleGridded4.set_number_of_scattering_coeffs 3).data 0 0 0 0 0 0 2
        = 0 ∧
    (exampleGridded4.set_number_of_scattering_coeffs 1).data 0 0 0 0 0 0 0
        = exampleGridded4.data 0 0 0 0 0 0 0 :=
  ⟨((set_number_of_scattering_coeffs_spec exampleGridded4).1 1
      (by decide)).2.1 0 0 0 0 0 0 1 (by decide),
   ((set_number_of_scattering_coeffs_spec exampleGridded4).1 1
      (by decide)).2.2 0 0 0 0 0 0 2 (by decide) (by decide),
   (((set_number_of_scattering_coeffs_spec exampleGridded4).2.1 1
      (by decide) (by decide)).2 0 0 0 0 0 0 0 (by decide))⟩

/-- C5: `set_data(frequency_index, temperature_index, other)` on a gridded
field fails with the dimension-mismatch error exactly when the element-axis
extents differ (the target is not modified); when they agree it succeeds,
overwriting the sub-tensor at the given frequency/temperature index with
`other`'s data regridded onto the target's angular grids and leaving every
other index and all grids unchanged. -/
theorem set_data_dimension_check (f : ScatteringDataFieldGridded α)
    (fi ti : ℕ) (other : ScatteringDataFieldGridded α) :
    (other.n_elements ≠ f.n_elements →
      f.set_data fi ti other
        = Except.error ScatteringError.dimension_mismatch) ∧
    (other.n_elements = f.n_elements →
      ∃ g, f.set_data fi ti other = Except.ok g ∧
        (∀ i3 i4 i5 i6 j, g.data fi ti i3 i4 i5 i6 j
          = other.regrid_angles_data f.lon_inc f.lat_inc f.lon_scat
              f.lat_scat 0 0 i3 i4 i5 i6 j) ∧
        (∀ i1 i2 i3 i4 i5 i6 j, ¬(i1 = fi ∧ i2 = ti) →
          g.data i1 i2 i3 i4 i5 i6 j = f.data i1 i2 i3 i4 i5 i6 j) ∧
        g.f_grid = f.f_grid ∧ g.t_grid = f.t_grid ∧
        g.lon_inc = f.lon_inc ∧ g.lat_inc = f.lat_inc ∧
        g.lon_scat = f.lon_scat ∧ g.lat_scat = f.lat_scat ∧
        g.n_elements = f.n_elements) := by
  constructor
  · intro h
    simp [ScatteringDataFieldGridded.set_data, h]
  · intro h
    simp only [ScatteringDataFieldGridded.set_data]
    rw [if_pos h]
    refine ⟨_, rfl, ?_, ?_, rfl, rfl, rfl, rfl, rfl, rfl, rfl⟩
    · intro i3 i4 i5 i6 j
      simp
    · intro i1 i2 i3 i4 i5 i6 j h'
      exact if_neg h'

theorem set_data_dimension_check_witness :
    exampleGridded5.set_data 0 0 exampleGridded5b
      = Except.error ScatteringError.dimension_mismatch :=
  (set_data_dimension_check exampleGridded5 0 0 exampleGridded5b).1
    (by decide)

theorem countP_getD_sorted {γ : Type} [LinearOrder γ] :
    ∀ (xs : List γ), xs.Sorted (· < ·) → ∀ (k : ℕ) (d : γ), k < xs.length →
      xs.countP (fun y => decide (y ≤ xs.getD k d)) = k + 1 := by
  intro xs
  induction xs with
  | nil => intro _ k d hk; simp at hk
  | cons a tl ih =>
    intro hs k d hk
    rw [List.sorted_cons] at hs
    obtain ⟨ha, hs2⟩ := hs
    cases k with
    | zero =>
      rw [List.countP_cons]
      simp only [List.getD_cons_zero]
      have h0 : tl.countP (fun y => decide (y ≤ a)) = 0 := by
        rw [List.countP_eq_zero]
        intro b hb
        simp only [decide_eq_true_eq]
        exact not_le.mpr (ha b hb)
      simp [h0]
    | succ k =>
      rw [List.countP_cons]
      simp only [List.getD_cons_succ]
      have hk2 : k < tl.length := by simpa using Nat.lt_of_succ_lt_succ hk
      have hmem : tl.getD k d ∈ tl := by
        rw [List.getD_eq_getElem _ _ hk2]
        exact List.getElem_mem hk2
      have hle : decide (a ≤ tl.getD k d) = true := by
        simp only [decide_eq_true_eq]
        exact le_of_lt (ha _ hmem)
      rw [ih hs2 k d hk2, if_pos hle]

theorem sorted_getD_lt {γ : Type} [LinearOrder γ] (xs : List γ)
    (hs : xs.Sorted (· < ·)) (i j : ℕ) (d : γ) (hij : i < j)
    (hj : j < xs.length) : xs.getD i d < xs.getD j d := by
  rw [List.getD_eq_getElem _ _ (lt_trans hij hj), List.getD_eq_getElem _ _ hj]
  have h : xs.get ⟨i, lt_trans hij hj⟩ < xs.get ⟨j, hj⟩ :=
    hs.rel_get_of_lt hij
  simpa using h

/-- Interpolating at the `k`-th source-grid coordinate returns the `k`-th
sample: regridding onto (a sub-grid of) the source grid is exact. -/
theorem interp1_getD {β : Type} [AddCommGroup β] [Module α β]
    (xs : List α) (hs : xs.Sorted (· < ·)) (k : ℕ) (hk : k < xs.length) :
    ∀ v : ℕ → β, interp1 xs v (xs.getD k 0) = v k := by
  intro v
  unfold interp1
  by_cases h1 : xs.length ≤ 1
  · have hk0 : k = 0 := by omega
    rw [if_pos h1, hk0]
  · rw [if_neg h1]
    simp only [countP_getD_sorted xs hs k 0 hk, Nat.add_sub_cancel]
    by_cases h2 : k ≤ xs.length - 2
    · rw [min_eq_left h2, sub_self, zero_div, sub_zero, one_smul, zero_smul,
        add_zero]
    · have hmin : min k (xs.length - 2) = xs.length - 2 :=
        min_eq_right (by omega)
      have hidx : xs.length - 2 + 1 = k := by omega
      rw [hmin, hidx]
      have hlt : xs.getD (xs.length - 2) 0 < xs.getD k 0 :=
        sorted_getD_lt xs hs (xs.length - 2) k 0 (by omega) hk
      rw [div_self (sub_ne_zero.mpr (ne_of_gt hlt)), sub_self, zero_smul,
        one_smul, zero_add]

theorem lmGo_coeffIndexFrom (lmax : ℕ) :
    ∀ fuel m0 l m : ℕ, m0 ≤ m → m ≤ l → l ≤ lmax → m - m0 ≤ fuel →
      lmGo lmax fuel m0 (coeffIndexFrom lmax m0 l m) = (l, m) := by
  intro fuel
  induction fuel with
  | zero =>
    intro m0 l m h1 h2 h3 h4
    have hm : m = m0 := by omega
    subst hm
    unfold coeffIndexFrom
    rw [Finset.Ico_self, Finset.sum_empty, zero_add]
    simp only [lmGo]
    rw [Nat.add_sub_cancel' h2]
  | succ fuel ih =>
    intro m0 l m h1 h2 h3 h4
    by_cases hm : m = m0
    · subst hm
      unfold coeffIndexFrom
      rw [Finset.Ico_self, Finset.sum_empty, zero_add]
      simp only [lmGo]
      rw [if_pos (by omega : l - m < lmax + 1 - m), Nat.add_sub_cancel' h2]
    · have hlt : m0 < m := lt_of_le_of_ne h1 (Ne.symm hm)
      have hsum : coeffIndexFrom lmax m0 l m
          = (lmax + 1 - m0) + coeffIndexFrom lmax (m0 + 1) l m := by
        unfold coeffIndexFrom
        rw [Finset.sum_eq_sum_Ico_succ_bot hlt, add_assoc]
      rw [hsum]
      simp only [lmGo]
      rw [if_neg (by omega), Nat.add_sub_cancel_left]
      exact ih (m0 + 1) l m (by omega) h2 h3 (by omega)

theorem SHT.lmOfIndex_coeffIndex (s : SHT) (l m : ℕ) (h1 : m ≤ l)
    (h2 : l ≤ s.l_max) (h3 : m ≤ s.m_max) :
    s.lmOfIndex (s.coeffIndex l m) = (l, m) :=
  lmGo_coeffIndexFrom s.l_max s.m_max 0 l m (Nat.zero_le m) h1 h2 (by omega)

/-- Regridding a spectral field onto its own four grids is the identity on
every in-range entry (the `RegularRegridder` evaluates at exact source-grid
coordinates). -/
theorem spectral_regrid_self (f : ScatteringDataFieldSpectral α)
    (hs1 : f.f_grid.Sorted (· < ·)) (hs2 : f.t_grid.Sorted (· < ·))
    (hs3 : f.lon_inc.Sorted (· < ·)) (hs4 : f.lat_inc.Sorted (· < ·))
    (i1 i2 i3 i4 : ℕ) (h1 : i1 < f.f_grid.length)
    (h2 : i2 < f.t_grid.length) (h3 : i3 < f.lon_inc.length)
    (h4 : i4 < f.lat_inc.length) (c j : ℕ) :
    (f.regrid f.f_grid f.t_grid f.lon_inc f.lat_inc).data i1 i2 i3 i4 c j
      = f.data i1 i2 i3 i4 c j := by
  simp only [ScatteringDataFieldSpectral.regrid,
    interp1_getD f.f_grid hs1 i1 h1, interp1_getD f.t_grid hs2 i2 h2,
    interp1_getD f.lon_inc hs3 i3 h3, interp1_getD f.lat_inc hs4 i4 h4]

theorem spectral_regrid_sht (f : ScatteringDataFieldSpectral α)
    (fg tg li la : List α) :
    (f.regrid fg tg li la).sht_scat = f.sht_scat := rfl

/-- C6: `to_spectral(sht_other)` on a spectral field acts as zero-padding or
truncation in coefficient space: every `(l, m)` admissible in the new
truncation keeps its old value if it was admissible in the old truncation
and is zero otherwise (old-only coefficients have no slot in the result);
the four grids, the element extent, and the new transform are carried. -/
theorem to_spectral_truncation_spec (f : ScatteringDataFieldSpectral α)
    (sht_other : SHT) (l m : ℕ)
    (hs1 : f.f_grid.Sorted (· < ·)) (hs2 : f.t_grid.Sorted (· < ·))
    (hs3 : f.lon_inc.Sorted (· < ·)) (hs4 : f.lat_inc.Sorted (· < ·))
    (hml : m ≤ l) (hl : l ≤ sht_other.l_max) (hm : m ≤ sht_other.m_max)
    (i1 i2 i3 i4 : ℕ) (h1 : i1 < f.f_grid.length)
    (h2 : i2 < f.t_grid.length) (h3 : i3 < f.lon_inc.length)
    (h4 : i4 < f.lat_inc.length) (j : ℕ) :
    (l ≤ f.sht_scat.l_max ∧ m ≤ f.sht_scat.m_max →
      (f.to_spectral sht_other).data i1 i2 i3 i4
          (sht_other.coeffIndex l m) j
        = f.data i1 i2 i3 i4 (f.sht_scat.coeffIndex l m) j) ∧
    (¬(l ≤ f.sht_scat.l_max ∧ m ≤ f.sht_scat.m_max) →
      (f.to_spectral sht_other).data i1 i2 i3 i4
          (sht_other.coeffIndex l m) j = 0) ∧
    (f.to_spectral sht_other).f_grid = f.f_grid ∧
    (f.to_spectral sht_other).t_grid = f.t_grid ∧
    (f.to_spectral sht_other).lon_inc = f.lon_inc ∧
    (f.to_spectral sht_other).lat_inc = f.lat_inc ∧
    (f.to_spectral sht_other).sht_scat = sht_other ∧
    (f.to_spectral sht_other).n_elements = f.n_elements := by
  have hc : sht_other.lmOfIndex (sht_other.coeffIndex l m) = (l, m) :=
    SHT.lmOfIndex_coeffIndex sht_other l m hml hl hm
  refine ⟨?_, ?_, rfl, rfl, rfl, rfl, rfl, rfl⟩
  · intro hold
    simp only [ScatteringDataFieldSpectral.to_spectral,
      ScatteringDataFieldSpectral.add, SHT.add_coeffs, hc,
      spectral_regrid_sht]
    rw [if_pos hold,
      spectral_regrid_self f hs1 hs2 hs3 hs4 i1 i2 i3 i4 h1 h2 h3 h4]
    exact zero_add _
  · intro hold
    simp only [ScatteringDataFieldSpectral.to_spectral,
      ScatteringDataFieldSpectral.add, SHT.add_coeffs, hc,
      spectral_regrid_sht]
    rw [if_neg hold]

theorem to_spectral_truncation_spec_witness :
    (exampleSpectral6.to_spectral exampleSHT6).data 0 0 0 0
        (exampleSHT6.coeffIndex 1 0) 0
      = exampleSpectral6.data 0 0 0 0
          (exampleSpectral6.sht_scat.coeffIndex 1 0) 0 :=
  (to_spectral_truncation_spec exampleSpectral6 exampleSHT6 1 0
    (by decide) (by decide) (by decide) (by decide)
    (by decide) (by decide) (by decide)
    0 0 0 0 (by decide) (by decide) (by decide) (by decide) 0).1
    ⟨by decide, by decide⟩

/-- C7: the mutating operations `operator+=`, `operator*=`, `normalize` and
`set_number_of_scattering_coeffs` of all three field variants change only the
field's own data tensor: every grid (for the spectral variants, the angular
grids live in the shared transforms) and the derived particle type are
identical before and after; `normalize` does not exist on the fully-spectral
variant. -/
theorem mutating_ops_preserve_grids
    (fg og : ScatteringDataFieldGridded α)
    (fs os : ScatteringDataFieldSpectral α)
    (ffs ofs : ScatteringDataFieldFullySpectral α)
    (c value : α) (cosFn : α → α) (sqrt_4pi : α) (n : ℕ) :
    grids_eq_gridded (fg.add og) fg ∧
    grids_eq_gridded (fg.scale c) fg ∧
    grids_eq_gridded (fg.normalize cosFn value) fg ∧
    grids_eq_gridded (fg.set_number_of_scattering_coeffs n) fg ∧
    grids_eq_spectral (fs.add os) fs ∧
    grids_eq_spectral (fs.scale c) fs ∧
    grids_eq_spectral (fs.normalize sqrt_4pi value) fs ∧
    grids_eq_spectral (fs.set_number_of_scattering_coeffs n) fs ∧
    grids_eq_fully (ffs.add ofs) ffs ∧
    grids_eq_fully (ffs.scale c) ffs ∧
    grids_eq_fully (ffs.set_number_of_scattering_coeffs n) ffs := by
  have hg : ∀ (f : ScatteringDataFieldGridded α) (k : ℕ),
      grids_eq_gridded (f.set_number_of_scattering_coeffs k) f := by
    intro f k
    unfold ScatteringDataFieldGridded.set_number_of_scattering_coeffs
    split <;> exact ⟨rfl, rfl, rfl, rfl, rfl, rfl, rfl⟩
  have hsp : ∀ (f : ScatteringDataFieldSpectral α) (k : ℕ),
      grids_eq_spectral (f.set_number_of_scattering_coeffs k) f := by
    intro f k
    unfold ScatteringDataFieldSpectral.set_number_of_scattering_coeffs
    split <;> exact ⟨rfl, rfl, rfl, rfl, rfl, rfl⟩
  have hfu : ∀ (f : ScatteringDataFieldFullySpectral α) (k : ℕ),
      grids_eq_fully (f.set_number_of_scattering_coeffs k) f := by
    intro f k
    unfold ScatteringDataFieldFullySpectral.set_number_of_scattering_coeffs
    split <;> exact ⟨rfl, rfl, rfl, rfl, rfl⟩
  exact ⟨⟨rfl, rfl, rfl, rfl, rfl, rfl, rfl⟩,
    ⟨rfl, rfl, rfl, rfl, rfl, rfl, rfl⟩,
    ⟨rfl, rfl, rfl, rfl, rfl, rfl, rfl⟩, hg fg n,
    ⟨rfl, rfl, rfl, rfl, rfl, rfl⟩, ⟨rfl, rfl, rfl, rfl, rfl, rfl⟩,
    ⟨rfl, rfl, rfl, rfl, rfl, rfl⟩, hsp fs n,
    ⟨rfl, rfl, rfl, rfl, rfl⟩, ⟨rfl, rfl, rfl, rfl, rfl⟩, hfu ffs n⟩

/-- C8 (code bug): the output of `calculate_nodes_and_weights` does not
depend on the `precision` value at all — the local
`Scalar precision = detail::Precision<Scalar>::value;` is never consulted by
the Newton loop, whose break test compares `|x - x_old|` against
`0.5 * (x + x_old)` instead of the precision threshold; consequently the
iteration runs all `n_max_iter = 10` passes even at degree 1, where the
initial guess already is the exact root. -/
theorem precision_threshold_not_used :
    (∀ (cosFn : ℚ → ℚ) (pi p q : ℚ) (n : ℕ),
      calculate_nodes_and_weights cosFn pi p n
        = calculate_nodes_and_weights cosFn pi q n) ∧
    (newton_node (fun _ => (0 : ℚ)) 0 1 1).2.2 = n_max_iter := by
  constructor
  · intro cosFn pi p q n
    rfl
  · have hinit : initial_guess (fun _ => (0 : ℚ)) 0 1 1 = 0 := by
      norm_num [initial_guess]
    have hstep : newton_step 1 (0 : ℚ) = (0, 1) := by
      norm_num [newton_step, legendreP]
    have hloop : ∀ fuel : ℕ, ∀ dp : ℚ,
        (newton_loop 1 fuel 0 dp).2.2 = fuel := by
      intro fuel
      induction fuel with
      | zero => intro dp; rfl
      | succ fuel ih =>
        intro dp
        simp only [newton_loop, hstep]
        rw [if_neg (by norm_num)]
        show (newton_loop 1 fuel 0 1).2.2 + 1 = fuel + 1
        rw [ih 1]
    show (newton_loop 1 n_max_iter
      (initial_guess (fun _ => (0 : ℚ)) 0 1 1) 0).2.2 = n_max_iter
    rw [hinit]
    exact hloop n_max_iter 0

/-- The symmetry invariant on a (nodes, weights) state: mirror entries hold
opposite nodes and equal weights. -/
def SymInv {γ : Type} [LinearOrderedField γ] (n : ℕ)
    (st : (ℕ → γ) × (ℕ → γ)) : Prop :=
  ∀ k, k < n → k ≠ n - 1 - k →
    st.1 (n - 1 - k) = -(st.1 k) ∧ st.2 (n - 1 - k) = st.2 k

theorem symInv_gl_step (cosFn : α → α) (pi : α) (n : ℕ)
    (st : (ℕ → α) × (ℕ → α)) (h : SymInv n st) (i0 : ℕ)
    (hi : i0 + 1 ≤ n) : SymInv n (gl_step cosFn pi n st i0) := by
  intro k hk hne
  refine ⟨?_, ?_⟩ <;>
    simp only [gl_step, Function.update_apply] <;>
    split_ifs <;>
    first
      | rfl
      | exact (neg_neg _).symm
      | omega
      | exact (h k hk hne).1
      | exact (h k hk hne).2

theorem symInv_foldl (cosFn : α → α) (pi : α) (n : ℕ) :
    ∀ L : List ℕ, (∀ i0 ∈ L, i0 + 1 ≤ n) → ∀ st, SymInv n st →
      SymInv n (L.foldl (gl_step cosFn pi n) st) := by
  intro L
  induction L with
  | nil => intro _ st h; exact h
  | cons a tl ih =>
    intro hL st h
    simp only [List.foldl_cons]
    exact ih (fun x hx => hL x (List.mem_cons_of_mem a hx)) _
      (symInv_gl_step cosFn pi n st h a (hL a (List.mem_cons_self a tl)))

/-- C9: the node and weight arrays of the quadrature are symmetric under
index reversal: for every degree `n ≥ 1` and every index pair `(k, n-1-k)`
with `k ≠ n-1-k`, the mirrored node is the negated node and the mirrored
weight equals the weight. -/
theorem nodes_weights_symmetric (cosFn : α → α) (pi precision : α)
    (n k : ℕ) (hn : 1 ≤ n) (hk : k < n) (hne : k ≠ n - 1 - k) :
    (calculate_nodes_and_weights cosFn pi precision n).1 (n - 1 - k)
        = -((calculate_nodes_and_weights cosFn pi precision n).1 k) ∧
    (calculate_nodes_and_weights cosFn pi precision n).2 (n - 1 - k)
        = (calculate_nodes_and_weights cosFn pi precision n).2 k := by
  have h0 : SymInv n ((fun _ => (0 : α)), fun _ => (0 : α)) := by
    intro k hk hne
    exact ⟨neg_zero.symm, rfl⟩
  have hmain := symInv_foldl cosFn pi n (List.range ((n + 1) / 2))
    (fun i0 hi0 => by
      have := List.mem_range.mp hi0
      omega) _ h0
  exact hmain k hk hne

theorem nodes_weights_symmetric_witness :
    (calculate_nodes_and_weights (fun _ => (0 : ℚ)) 0 0 2).1 1
        = -((calculate_nodes_and_weights (fun _ => (0 : ℚ)) 0 0 2).1 0) ∧
    (calculate_nodes_and_weights (fun _ => (0 : ℚ)) 0 0 2).2 1
        = (calculate_nodes_and_weights (fun _ => (0 : ℚ)) 0 0 2).2 0 :=
  nodes_weights_symmetric (fun _ => 0) 0 0 2 0 (by decide) (by decide)
    (by decide)

theorem newton_loop_count_le (n : ℕ) :
    ∀ (fuel : ℕ) (x dp : α), (newton_loop n fuel x dp).2.2 ≤ fuel := by
  intro fuel
  induction fuel with
  | zero =>
    intro x dp
    simp [newton_loop]
  | succ fuel ih =>
    intro x dp
    simp only [newton_loop]
    split
    · simp
    · exact Nat.succ_le_succ (ih _ _)

/-- C10: the Newton root-finding loop for every node performs at most
`n_max_iter = 10` passes, whether or not the break test ever fires, so the
quadrature construction terminates with this fixed bound. -/
theorem newton_iterations_bounded (cosFn : α → α) (pi : α) (n i : ℕ) :
    (newton_node cosFn pi n i).2.2 ≤ n_max_iter :=
  newton_loop_count_le n n_max_iter _ 0

end Theorems

end Scattering
